import Mathlib

/-!
Shallow embedding of the course tracker scraper (src/main.js) for the
michigandaily lsa-cg-scraper-js repository.

The pipeline: loads a course catalog, fetches one detail page per course
under a bounded task pool, extracts colon-delimited label/value pairs into
section records, aggregates records by course id with a capacity-hint
fallback taken from the previously published overview table, and publishes
an aggregated overview table plus a raw stub table.

Numbers: the JavaScript code computes with IEEE doubles obtained by
coercing decimal digit strings and by one division. We model those values
exactly as NaN, the two infinities, or a fraction of an integer numerator
over a positive natural denominator, kept unnormalized so that every
operation is structural and kernel-computable. All numerals this pipeline
actually handles are small integers, where this model and IEEE doubles
agree exactly.
-/

namespace CourseScraper

/-- Model of a JavaScript number as produced and consumed by src/main.js:
NaN, positive or negative infinity, or the exact fraction n / d with d
positive in every value the pipeline constructs. -/
inductive JsNum where
  | nan : JsNum
  | inf : JsNum
  | negInf : JsNum
  | num (n : Int) (d : Nat) : JsNum
deriving Repr, DecidableEq

/-- Integral JavaScript number. -/
def JsNum.int (i : Int) : JsNum := .num i 1

/-- JavaScript truthiness test on numbers, as used by the d3-array sum
fold: 0 and NaN are falsy, everything else truthy. -/
def jsTruthy : JsNum → Bool
  | .nan => false
  | .inf => true
  | .negInf => true
  | .num a _ => a != 0

/-- JavaScript addition on numbers. -/
def jsAdd : JsNum → JsNum → JsNum
  | .nan, _ => .nan
  | _, .nan => .nan
  | .inf, .negInf => .nan
  | .negInf, .inf => .nan
  | .inf, _ => .inf
  | _, .inf => .inf
  | .negInf, _ => .negInf
  | _, .negInf => .negInf
  | .num a d, .num b e => .num (a * e + b * d) (d * e)

/-- JavaScript strict less-than on numbers: any comparison with NaN is
false; fractions compare by cross multiplication (denominators are
positive in every constructed value). -/
def jsLt : JsNum → JsNum → Bool
  | .nan, _ => false
  | _, .nan => false
  | _, .negInf => false
  | .negInf, _ => true
  | .inf, _ => false
  | _, .inf => true
  | .num a d, .num b e => decide (a * e < b * d)

/-- JavaScript less-than-or-equal on numbers; false on NaN operands. -/
def jsLe : JsNum → JsNum → Bool
  | .nan, _ => false
  | _, .nan => false
  | .negInf, _ => true
  | _, .negInf => false
  | _, .inf => true
  | .inf, _ => false
  | .num a d, .num b e => decide (a * e ≤ b * d)

/-- JavaScript division. A zero divisor yields NaN when the dividend is
zero and a signed infinity otherwise (the model has no negative zero, so
the divisor sign is the sign of its numerator). -/
def jsDiv : JsNum → JsNum → JsNum
  | .nan, _ => .nan
  | _, .nan => .nan
  | .inf, .inf => .nan
  | .inf, .negInf => .nan
  | .negInf, .inf => .nan
  | .negInf, .negInf => .nan
  | .inf, .num b _ => if b < 0 then .negInf else .inf
  | .negInf, .num b _ => if b < 0 then .inf else .negInf
  | .num _ _, .inf => .num 0 1
  | .num _ _, .negInf => .num 0 1
  | .num a d, .num b e =>
    if b = 0 then (if a = 0 then .nan else if 0 < a then .inf else .negInf)
    else if 0 < b then .num (a * e) (d * b.toNat)
    else .num (-(a * e)) (d * (-b).toNat)

/-- The sum combinator of d3-array as called at src/main.js:106 and
src/main.js:122: a fold that adds a value only when its numeric coercion
is truthy, so NaN (and harmlessly 0) contributions are skipped. -/
def d3sum (l : List JsNum) : JsNum :=
  l.foldl (fun acc x => if jsTruthy x then jsAdd acc x else acc) (JsNum.int 0)

/-- Whitespace test used by the modelled string trim; covers the
whitespace that can occur in the scraped pages. -/
def isWs (c : Char) : Bool := c == ' ' || c == '\t' || c == '\n' || c == '\r'

/-- Model of the JavaScript String.prototype.trim call: drop leading and
trailing whitespace. -/
def jsTrim (s : String) : String :=
  ⟨((s.data.dropWhile isWs).reverse.dropWhile isWs).reverse⟩

/-- Model of the JavaScript String.prototype.split call with a one-element
separator, specialized to the colon separator used at src/main.js:48. -/
def splitColonAux : List Char → List Char → List (List Char)
  | [], acc => [acc.reverse]
  | c :: cs, acc =>
    if c = ':' then acc.reverse :: splitColonAux cs []
    else splitColonAux cs (c :: acc)

/-- Split a string on colons, JavaScript style: always at least one part,
empty parts preserved. -/
def splitColon (s : String) : List (List Char) := splitColonAux s.data []

/-- Model of the JavaScript String.prototype.includes call: substring
containment. -/
def hasInfixB : List Char → List Char → Bool
  | [], needle => needle == []
  | hay@(_ :: rest), needle => needle.isPrefixOf hay || hasInfixB rest needle

/-- Substring containment on strings, as used by the section filter at
src/main.js:98-101 and the study-abroad test at src/main.js:124. -/
def jsIncludes (s sub : String) : Bool := hasInfixB s.data sub.data

/-- Model of the JavaScript slice(-3) call at src/main.js:105: the last
three characters, or the whole string when it is shorter. -/
def sliceLast3 (s : String) : String := ⟨s.data.drop (s.data.length - 3)⟩

/-- Model of the JavaScript slice(0,-3) call at src/main.js:116: the
string without its last three characters. -/
def dropLast3 (s : String) : String := ⟨s.data.take (s.data.length - 3)⟩

/-- Numeric value of a decimal digit character. -/
def digitVal (c : Char) : Nat := c.toNat - 48

/-- Accumulate the value of a run of decimal digit characters; none as
soon as a non-digit appears. -/
def parseNatCore : List Char → Nat → Option Nat
  | [], acc => some acc
  | c :: cs, acc =>
    if c.isDigit then parseNatCore cs (10 * acc + digitVal c) else none

/-- Parse a nonempty all-digit character list as a natural number. -/
def parseNatDigits : List Char → Option Nat
  | [] => none
  | cs => parseNatCore cs 0

/-- Unsigned part of the JavaScript ToNumber string grammar restricted to
what this pipeline can meet: the Infinity literal or a decimal integer
numeral; anything else is NaN. Fractional, exponent and hex forms never
occur in the scraped fields and are not modelled. -/
def parseUnsignedNum (cs : List Char) : JsNum :=
  if cs = "Infinity".data then .inf
  else
    match parseNatDigits cs with
    | some n => .num n 1
    | none => .nan

/-- Model of JavaScript string-to-number coercion (the unary plus at
src/main.js:105, 106, 122, 150): trim, empty means 0, optional sign, then
an Infinity literal or decimal integer numeral, otherwise NaN. -/
def strToJsNum (s : String) : JsNum :=
  match (jsTrim s).data with
  | [] => .num 0 1
  | '+' :: rest => parseUnsignedNum rest
  | '-' :: rest =>
    match parseUnsignedNum rest with
    | .inf => .negInf
    | .num a d => .num (-a) d
    | x => x
  | cs => parseUnsignedNum cs

/-- Decimal rendering of a natural number, digit by digit; the fuel
argument makes the recursion structural and is always called with enough
fuel. -/
def natToStrAux : Nat → Nat → List Char
  | 0, _ => []
  | _ + 1, 0 => []
  | f + 1, m + 1 =>
    natToStrAux f ((m + 1) / 10) ++ [Char.ofNat (48 + (m + 1) % 10)]

/-- Decimal rendering of a natural number, as JavaScript renders an
integral number in string concatenation. -/
def natToStr (n : Nat) : String := if n = 0 then "0" else ⟨natToStrAux n n⟩

/-- Decimal rendering of an integer. -/
def intToStr (i : Int) : String :=
  if i < 0 then "-" ++ natToStr i.natAbs else natToStr i.natAbs

/-- Model of JavaScript number-to-string coercion as triggered by the
string concatenation at src/main.js:82. Every number that reaches this
rendering in the pipeline is integral (an autotyped course number); the
non-integral branch renders the raw fraction and is never exercised. -/
def jsNumToString : JsNum → String
  | .nan => "NaN"
  | .inf => "Infinity"
  | .negInf => "-Infinity"
  | .num a d => if d = 1 then intToStr a else intToStr a ++ "/" ++ natToStr d

/-- One scraped section record, the JavaScript object built at
src/main.js:46-51: the fixed properties Course, Time and title set up
front, plus the open set of label/value pairs assigned from the page
columns. Field assignment appends to the list and lookup takes the last
binding, matching JavaScript property overwrite; assignments to the
three fixed property names are redirected onto the fixed fields by
setField, so the list never shadows them. -/
structure SectionRec where
  Course : String
  Time : String
  title : String
  fields : List (String × String)
deriving Repr, DecidableEq

/-- Dynamic property read on a section record, JavaScript style: the most
recent assignment wins, absent keys read as undefined (none). -/
def getField (d : SectionRec) (k : String) : Option String :=
  (d.fields.reverse.find? (fun p => p.1 == k)).map (fun p => p.2)

/-- Dynamic property write on a section record (src/main.js:50). A column
whose label collides with one of the three fixed property names
overwrites that property, as JavaScript assignment would. -/
def setField (d : SectionRec) (k v : String) : SectionRec :=
  if k == "Course" then { d with Course := v }
  else if k == "Time" then { d with Time := v }
  else if k == "title" then { d with title := v }
  else { d with fields := d.fields ++ [(k, v)] }

/-- The record literal at src/main.js:46. -/
def mkSection (name time title : String) : SectionRec :=
  { Course := name, Time := time, title := title, fields := [] }

/-- Model of one column of a section row (src/main.js:48-49): trim the
text, split on colons, take the first part as key and the second as
value. A text with no colon leaves the value undefined and the trim call
on it raises a TypeError, modelled as an error result. Parts beyond the
second are dropped, as the destructuring drops them. -/
def parseColumn (text : String) : Except String (String × String) :=
  match splitColon (jsTrim text) with
  | [] => .error "unreachable: split returns at least one part"
  | [_] => .error "TypeError: Cannot read properties of undefined (reading trim)"
  | k :: v :: _ => .ok (⟨k⟩, jsTrim ⟨v⟩)

/-- Model of the row callback at src/main.js:45-53: start from the fixed
record and fold the column texts over it, left to right, stopping at the
first raising column. -/
def extractRow (name time title : String) (cols : List String) : Except String SectionRec :=
  cols.foldlM
    (fun sec text => (parseColumn text).map (fun kv => setField sec kv.1 kv.2))
    (mkSection name time title)

/-- Outcome of one detail-page fetch. A success carries the parsed markup
abstracted as the list of section-row elements, each the list of its
column texts; httpNotOk is a resolved response with a non-success status;
rejected is a network-level failure (the fetch promise rejects). -/
inductive FetchResponse where
  | success (rows : List (List String)) : FetchResponse
  | httpNotOk : FetchResponse
  | rejected : FetchResponse
deriving Repr, DecidableEq

/-- Model of getCourseSections (src/main.js:31-54) for one course, given
the response of its detail page: a rejected fetch propagates as an error,
a non-success status yields the empty list, and a successful response is
extracted row by row. The hour-rounded timestamp is passed in as an
opaque string. -/
def getCourseSections (name title time : String) (resp : FetchResponse) :
    Except String (List SectionRec) :=
  match resp with
  | .rejected => .error "FetchError: network failure"
  | .httpNotOk => .ok []
  | .success rows => rows.mapM (fun cols => extractRow name time title cols)

/-- One catalog entry as produced by getCourses (src/main.js:66-76): the
course id with its request suffix and display title. The JavaScript Map
makes course ids unique. -/
structure CatEntry where
  course : String
  suffix : String
  title : String
deriving Repr, DecidableEq

/-- Fetch and extract every catalog entry and concatenate the per-course
lists in catalog order, as mapLimit collects its results and flat joins
them (src/main.js:57-63). A rejection fails the whole phase; which
rejection surfaces is scheduling dependent in the original, modelled here
as the first in catalog order. -/
def gatherSections (net : String → FetchResponse) (time : String) :
    List CatEntry → Except String (List SectionRec)
  | [] => .ok []
  | e :: es =>
    match getCourseSections e.course e.title time (net e.course) with
    | .error err => .error err
    | .ok li =>
      match gatherSections net time es with
      | .error err => .error err
      | .ok rest => .ok (li ++ rest)

/-- Model of getSections (src/main.js:23-64): over the catalog (none when
the catalog cache returned a non-success status and getCourses gave
null), fetch and extract every course and flatten the per-course lists in
catalog order. Iterating a null catalog raises, modelled as an error. The
network is abstracted as a map from course id to its response; the
bounded task pool affects only scheduling, not this functional result,
and is modelled separately as PoolStep. -/
def getSectionsModel (courses : Option (List CatEntry))
    (net : String → FetchResponse) (time : String) :
    Except String (List SectionRec) :=
  match courses with
  | none => .error "TypeError: Cannot read properties of null (reading entries)"
  | some cs => gatherSections net time cs

/-- One row of the previously published overview table after csvParse
with autoType (src/main.js:78-86): department parses as a string, number
and capacity as numbers. Only the fields the handler reads are kept. -/
structure OverviewRow where
  department : String
  number : JsNum
  capacity : JsNum
deriving Repr, DecidableEq

/-- The key under which d3 index files a prior overview row at
src/main.js:82: the department string concatenated with the
string-coerced autotyped number. -/
def makeOverviewKey (r : OverviewRow) : String :=
  r.department ++ jsNumToString r.number

/-- Lookup in the prior-overview index as performed at src/main.js:108:
the map built by d3 index is keyed by makeOverviewKey and probed with the
full course id. -/
def lookupOverview (table : List OverviewRow) (course : String) : Option OverviewRow :=
  table.find? (fun r => makeOverviewKey r == course)

/-- The section filter predicate at src/main.js:96-102. Reading the
includes method of an undefined Section property raises a TypeError,
modelled as an error result. -/
def countableE (d : SectionRec) : Except String Bool :=
  match getField d "Section" with
  | none => .error "TypeError: Cannot read properties of undefined (reading includes)"
  | some s =>
    .ok (jsIncludes s "LEC" || jsIncludes s "SEM" || jsIncludes s "REC" ||
      jsIncludes s "IND")

/-- The filter call at src/main.js:96, evaluated left to right with the
first raising record aborting the run. -/
def filterCountableE : List SectionRec → Except String (List SectionRec)
  | [] => .ok []
  | d :: ds =>
    match countableE d with
    | .error e => .error e
    | .ok b =>
      match filterCountableE ds with
      | .error e => .error e
      | .ok rest => .ok (if b then d :: rest else rest)

/-- First occurrences of the keys of a list, in encounter order, as d3
rollups iterates group keys. -/
def uniqueKeysAux : List String → List String → List String
  | [], _ => []
  | k :: ks, seen =>
    if seen.contains k then uniqueKeysAux ks seen
    else k :: uniqueKeysAux ks (k :: seen)

/-- Model of the d3 rollups grouping at src/main.js:95-128 keyed by the
Course property (src/main.js:127): one group per distinct course id in
first-encounter order, each group listing its records in input order. -/
def rollupsByCourse (l : List SectionRec) : List (String × List SectionRec) :=
  (uniqueKeysAux (l.map (fun d => d.Course)) []).map
    (fun k => (k, l.filter (fun d => d.Course == k)))

/-- Numeric coercion of the Open Seats property of a record
(src/main.js:106); an absent property coerces to NaN. -/
def openSeatsNum (d : SectionRec) : JsNum :=
  match getField d "Open Seats" with
  | none => .nan
  | some s => strToJsNum s

/-- The waitlist normalization shared by src/main.js:122 and
src/main.js:150: the sentinel dash reads as 0, anything else by numeric
coercion (an absent property coerces to NaN). -/
def waitListNum (d : SectionRec) : JsNum :=
  if getField d "Wait List" == some "-" then .num 0 1
  else
    match getField d "Wait List" with
    | none => .nan
    | some s => strToJsNum s

/-- One aggregated course summary, the record literal at
src/main.js:115-125, with the source field names. -/
structure Summary where
  department : String
  number : JsNum
  title : String
  capacity : JsNum
  available : JsNum
  percent_available : JsNum
  waitlist : JsNum
  undergrad : Bool
  studyAbroad : Bool
deriving Repr, DecidableEq

/-- Body of the rollups reducer at src/main.js:103-126 applied to one
group whose first element is d0. Number applied to the already autotyped
capacity hint is the identity and is folded into the stored field. -/
def summarizeBody (overview : Option (List OverviewRow)) (v : List SectionRec)
    (d0 : SectionRec) : Summary :=
    let course := d0.Course
    let number := strToJsNum (sliceLast3 course)
    let available := d3sum (v.map openSeatsNum)
    let capacity :=
      match overview with
      | some table =>
        match lookupOverview table course with
        | some row => if jsLt available row.capacity then row.capacity else available
        | none => available
      | none => available
    { department := dropLast3 course
      number := number
      title := d0.title
      capacity := capacity
      available := available
      percent_available := jsDiv available capacity
      waitlist := d3sum (v.map waitListNum)
      undergrad := jsLt number (JsNum.int 500)
      studyAbroad := jsIncludes course "STDABRD" }

/-- The rollups reducer applied to one group: d3 rollups never passes an
empty group, so the none branch is unreachable in the pipeline. -/
def summarizeGroup (overview : Option (List OverviewRow)) (v : List SectionRec) :
    Option Summary :=
  v.head?.map (summarizeBody overview v)

/-- The aggregated overview collection (src/main.js:95-128): filter to
countable sections, group by course id, reduce each group. Groups are
nonempty by construction, so the filterMap drops nothing. -/
def primaryOf (overview : Option (List OverviewRow)) (sections : List SectionRec) :
    Except String (List Summary) :=
  (filterCountableE sections).map fun filtered =>
    (rollupsByCourse filtered).filterMap (fun p => summarizeGroup overview p.2)

/-- One row of the published stub table, the projection at
src/main.js:142-151. Absent properties stay undefined (none) except the
waitlist column, which is normalized to a number. -/
structure StubRow where
  Course : String
  Time : String
  SectionLabel : Option String
  Mode : Option String
  ClassNo : Option String
  Status : Option String
  OpenSeats : Option String
  WaitList : JsNum
deriving Repr, DecidableEq

/-- Projection of one raw record into its stub row (src/main.js:142-151). -/
def stubRowOf (d : SectionRec) : StubRow :=
  { Course := d.Course
    Time := d.Time
    SectionLabel := getField d "Section"
    Mode := getField d "Instruction Mode"
    ClassNo := getField d "Class No"
    Status := getField d "Enroll Stat"
    OpenSeats := getField d "Open Seats"
    WaitList := waitListNum d }

/-- The stub table (src/main.js:142-151). -/
def stubOf (sections : List SectionRec) : List StubRow := sections.map stubRowOf

/-- One publish call issued by the handler: the overview object or a
timestamped stub object. -/
inductive Publish where
  | overviewCsv (rows : List Summary) : Publish
  | stubCsv (rows : List StubRow) : Publish
deriving Repr

/-- Model of the exported handler (src/main.js:88-161) as a function from
its external inputs to the publishes it performs, in order, paired with
the uncaught error that aborted the run if one did. The catalog input is
the getCourses result (none when the catalog cache was unavailable), the
overview input is the getOverview result (none when the prior overview
was unavailable). An error leaves every publish after it unissued. -/
def handlerModel (catalog : Option (List CatEntry)) (net : String → FetchResponse)
    (overview : Option (List OverviewRow)) (time : String) :
    List Publish × Option String :=
  match getSectionsModel catalog net time with
  | .error e => ([], some e)
  | .ok sections =>
    match filterCountableE sections with
    | .error e => ([], some e)
    | .ok filtered =>
      let primary := (rollupsByCourse filtered).filterMap
        (fun p => summarizeGroup overview p.2)
      let stub := stubOf sections
      ([Publish.overviewCsv primary, Publish.stubCsv stub], none)

/-- The concurrency bound at src/main.js:56. -/
def NUM_OPERATIONS : Nat := 25

/-- Scheduler state of the bounded task pool that mapLimit runs at
src/main.js:57-61: counts of tasks not yet started, in flight, and
completed. -/
structure PoolState where
  pending : Nat
  running : Nat
  completed : Nat
deriving Repr, DecidableEq

/-- One scheduler step of the bounded task pool: a task may start only
while fewer than the limit are in flight, and any in-flight task may
finish. -/
inductive PoolStep (limit : Nat) : PoolState → PoolState → Prop
  | start (s : PoolState) (hp : 0 < s.pending) (hr : s.running < limit) :
      PoolStep limit s ⟨s.pending - 1, s.running + 1, s.completed⟩
  | finish (s : PoolState) (hr : 0 < s.running) :
      PoolStep limit s ⟨s.pending, s.running - 1, s.completed + 1⟩

/-- States the pool can reach from the start of the fetch phase over a
catalog of n courses. -/
inductive PoolReachable (limit n : Nat) : PoolState → Prop
  | init : PoolReachable limit n ⟨n, 0, 0⟩
  | step (s t : PoolState) (hs : PoolReachable limit n s)
      (hst : PoolStep limit s t) : PoolReachable limit n t

/-- A column text that survives extraction: its trimmed text splits on
colons into at least two parts, so the destructured value is defined. -/
def colOkB (t : String) : Bool :=
  match splitColon (jsTrim t) with
  | _ :: _ :: _ => true
  | _ => false

/-- A column whose extracted key, if any, is not the Course property, so
extraction cannot rebind the record to another course id. -/
def colKeyNotCourse (t : String) : Bool :=
  match parseColumn t with
  | .ok kv => kv.1 != "Course"
  | .error _ => true

/-- A successful detail page none of whose columns rebinds Course. -/
def pageOkB (rows : List (List String)) : Bool :=
  rows.all (fun cols => cols.all colKeyNotCourse)

/-- A record whose Wait List property is the published sentinel dash or a
nonnegative integral numeral, the shapes the scraped pages publish. -/
def waitOkB (d : SectionRec) : Bool :=
  match getField d "Wait List" with
  | none => false
  | some s =>
    s == "-" ||
      (match strToJsNum s with
       | .num a dd => decide (0 ≤ a) && dd == 1
       | _ => false)

/-- A record whose Open Seats coercion is finite (possibly NaN), i.e. not
one of the two infinities; every digit-string or absent field satisfies
this. -/
def openSeatsFiniteB (d : SectionRec) : Bool :=
  match openSeatsNum d with
  | .inf => false
  | .negInf => false
  | _ => true

/-- A string that does not end in a decimal digit; department names have
this shape. -/
def endsNonDigitB (s : String) : Bool :=
  match s.data.getLast? with
  | none => true
  | some c => !c.isDigit

/-- No key of a grouped rollup is the given course id. -/
def allKeysNot (c : String) (l : List (String × List SectionRec)) : Bool :=
  l.all (fun p => p.1 != c)

/-- No record of the list carries the given course id. -/
def noCourseIn (c : String) (l : List SectionRec) : Bool :=
  l.all (fun d => d.Course != c)

/-- No stub row carries the given course id. -/
def noStubCourse (c : String) (l : List StubRow) : Bool :=
  l.all (fun r => r.Course != c)

/-- Exact rational value of a finite modelled number with a positive
denominator; used to state value-level facts about the division. -/
def jsValQ : JsNum → Option ℚ
  | .num a d => if d = 0 then none else some ((a : ℚ) / (d : ℚ))
  | _ => none

/-- Fixture: a lecture section of EECS485 with five open seats and two on
the waitlist. -/
def secLEC : SectionRec :=
  ⟨"EECS485", "T", "t", [("Section", "LEC001"), ("Open Seats", "5"), ("Wait List", "2")]⟩

/-- Fixture: an independent-study section of EECS485 with two open seats
and the waitlist sentinel. -/
def secIND : SectionRec :=
  ⟨"EECS485", "T", "t", [("Section", "IND401"), ("Open Seats", "2"), ("Wait List", "-")]⟩

/-- Fixture: a discussion section, not countable. -/
def secDIS : SectionRec :=
  ⟨"CLIMATE405", "T", "t2", [("Section", "DIS201"), ("Open Seats", "10"), ("Wait List", "3")]⟩

/-- Fixture: a lecture with zero open seats and no waitlist column. -/
def secZero : SectionRec :=
  ⟨"AERO201", "T", "t3", [("Section", "LEC001"), ("Open Seats", "0")]⟩

/-- Fixture: a lecture of a course whose number has a leading zero. -/
def secMath : SectionRec :=
  ⟨"MATH085", "T", "t4", [("Section", "LEC001"), ("Open Seats", "3")]⟩

/-- Fixture: a lecture of a study-abroad course. -/
def secAbroad : SectionRec :=
  ⟨"CLARCHSTDABRD685", "T", "t5",
    [("Section", "LEC001"), ("Open Seats", "4"), ("Wait List", "0")]⟩

/-- Fixture: a record scraped with no label/value columns at all. -/
def secBare : SectionRec := ⟨"PHYS140X", "T", "t", []⟩

/-- Fixture: catalog for the fetch-failure scenario. -/
def c7cat : List CatEntry := [⟨"EECS485", "001", "t"⟩, ⟨"AERO201", "002", "t3"⟩]

/-- Fixture: the page served for the course that does respond. -/
def c7page : List (List String) :=
  [["Section: LEC001", "Open Seats: 4", "Wait List: 0"]]

/-- Fixture: network where EECS485 resolves with a non-success status and
every other course serves the fixture page. -/
def c7net : String → FetchResponse :=
  fun nme => if nme == "EECS485" then .httpNotOk else .success c7page

/-- Fixture: aggregated summary of the EECS485 group [secLEC, secIND]
under a 100-capacity hint. -/
def c1wSummary : Summary :=
  ⟨"EECS", .num 485 1, "t", .num 100 1, .num 7 1, .num 7 100, .num 2 1, true, false⟩

/-- Fixture: aggregated summary of the one-lecture EECS485 group with no
hint table. -/
def c4wSummary : Summary :=
  ⟨"EECS", .num 485 1, "t", .num 5 1, .num 5 1, .num 5 5, .num 2 1, true, false⟩

/-- Fixture: aggregated summary of the two-section EECS485 group with no
hint table. -/
def c5wSummary : Summary :=
  ⟨"EECS", .num 485 1, "t", .num 7 1, .num 7 1, .num 7 7, .num 2 1, true, false⟩

/-- Fixture: aggregated summary of the MATH085 group under a prior table
whose only row is the prior MATH085 row. -/
def c3wSummary : Summary :=
  ⟨"MATH", .num 85 1, "t4", .num 3 1, .num 3 1, .num 3 3, .num 0 1, true, false⟩

/-- Fixture: the prior overview row of MATH085 as autoType reads it back:
department MATH, number 85, capacity 200. -/
def c3table : List OverviewRow := [⟨"MATH", .num 85 1, .num 200 1⟩]

/-- Fixture: aggregated summary of the study-abroad group. -/
def c9wSummary : Summary :=
  ⟨"CLARCHSTDABRD", .num 685 1, "t5", .num 4 1, .num 4 1, .num 4 4, .num 0 1,
    false, true⟩

/-! General lemmas about the embedded operations. -/

theorem jsLt_imp_jsLe {a b : JsNum} (h : jsLt a b = true) : jsLe a b = true := by
  cases a <;> cases b <;> simp_all [jsLt, jsLe] <;> omega

theorem jsLe_refl_num (a : Int) (d : Nat) : jsLe (.num a d) (.num a d) = true := by
  simp [jsLe]

/-- The d3 sum fold keeps a finite accumulator when no summand is an
infinity. -/
theorem d3sum_foldl_num (l : List JsNum) :
    ∀ a0 d0, (∀ x ∈ l, x ≠ JsNum.inf ∧ x ≠ JsNum.negInf) →
      ∃ a d, l.foldl (fun acc x => if jsTruthy x then jsAdd acc x else acc)
          (JsNum.num a0 d0) = JsNum.num a d := by
  induction l with
  | nil => intro a0 d0 _; exact ⟨a0, d0, rfl⟩
  | cons x xs ih =>
    intro a0 d0 h
    have hx := h x (by simp)
    have hxs : ∀ y ∈ xs, y ≠ JsNum.inf ∧ y ≠ JsNum.negInf :=
      fun y hy => h y (by simp [hy])
    rw [List.foldl_cons]
    by_cases ht : jsTruthy x = true
    · rw [ht]
      cases x with
      | nan => simp [jsTruthy] at ht
      | inf => exact absurd rfl hx.1
      | negInf => exact absurd rfl hx.2
      | num b e => simpa [jsAdd] using ih _ _ hxs
    · rw [Bool.not_eq_true] at ht
      rw [ht]
      simpa using ih a0 d0 hxs

/-- No infinite summand: the d3 sum is a finite number. -/
theorem d3sum_num (l : List JsNum)
    (h : ∀ x ∈ l, x ≠ JsNum.inf ∧ x ≠ JsNum.negInf) :
    ∃ a d, d3sum l = JsNum.num a d :=
  d3sum_foldl_num l 0 1 h

/-- The d3 sum fold of nonnegative integral values from a nonnegative
integral accumulator stays a nonnegative integral value. -/
theorem d3sum_foldl_nat (l : List JsNum) :
    ∀ k0 : Nat, (∀ x ∈ l, ∃ k : Nat, x = JsNum.num k 1) →
      ∃ k : Nat, l.foldl (fun acc x => if jsTruthy x then jsAdd acc x else acc)
          (JsNum.num k0 1) = JsNum.num k 1 := by
  induction l with
  | nil => intro k0 _; exact ⟨k0, rfl⟩
  | cons x xs ih =>
    intro k0 h
    obtain ⟨k, hk⟩ := h x (by simp)
    have hxs : ∀ y ∈ xs, ∃ k : Nat, y = JsNum.num k 1 :=
      fun y hy => h y (by simp [hy])
    subst hk
    rw [List.foldl_cons]
    by_cases ht : jsTruthy (JsNum.num k 1) = true
    · rw [if_pos ht]
      have hadd : jsAdd (JsNum.num k0 1) (JsNum.num k 1) = JsNum.num (k0 + k) 1 := by
        simp [jsAdd]
      rw [hadd]
      exact ih (k0 + k) hxs
    · rw [if_neg ht]
      exact ih k0 hxs

/-- Every summand the sentinel normalization produces is a nonnegative
integral value: the d3 sum is one too. -/
theorem d3sum_nat (l : List JsNum)
    (h : ∀ x ∈ l, ∃ k : Nat, x = JsNum.num k 1) :
    ∃ k : Nat, d3sum l = JsNum.num k 1 :=
  d3sum_foldl_nat l 0 h

/-- The modelled includes call agrees with list infix containment. -/
theorem hasInfixB_iff (hay needle : List Char) :
    hasInfixB hay needle = true ↔ needle <:+: hay := by
  induction hay with
  | nil =>
    simp [hasInfixB]
  | cons c rest ih =>
    rw [hasInfixB, Bool.or_eq_true, List.isPrefixOf_iff_prefix, ih,
      List.infix_cons_iff]

/-- jsIncludes agrees with substring containment of the character data. -/
theorem jsIncludes_iff (s sub : String) :
    jsIncludes s sub = true ↔ sub.data <:+: s.data := hasInfixB_iff s.data sub.data

theorem mem_of_getLast? : ∀ (l : List Char) (c : Char), l.getLast? = some c → c ∈ l
  | [], c => by simp
  | [a], c => by
    intro h
    simp only [List.getLast?_singleton, Option.some.injEq] at h
    simp [h]
  | a :: b :: l, c => by
    rw [List.getLast?_cons_cons]
    intro h
    exact List.mem_cons_of_mem _ (mem_of_getLast? (b :: l) c h)

theorem splitColonAux_ne_nil (cs acc : List Char) : splitColonAux cs acc ≠ [] := by
  induction cs generalizing acc with
  | nil => simp [splitColonAux]
  | cons c rest ih =>
    rw [splitColonAux]
    by_cases hc : c = ':'
    · simp [hc]
    · simpa [hc] using ih (c :: acc)

/-- Destructing a successful summarizeGroup: the summary is the reducer
body at the head of the group. -/
theorem summarizeGroup_eq {overview : Option (List OverviewRow)}
    {v : List SectionRec} {d0 : SectionRec} (hv : v.head? = some d0) :
    summarizeGroup overview v = some (summarizeBody overview v d0) := by
  simp [summarizeGroup, hv]

theorem summarizeBody_available (overview : Option (List OverviewRow))
    (v : List SectionRec) (d0 : SectionRec) :
    (summarizeBody overview v d0).available = d3sum (v.map openSeatsNum) := rfl

theorem summarizeBody_waitlist (overview : Option (List OverviewRow))
    (v : List SectionRec) (d0 : SectionRec) :
    (summarizeBody overview v d0).waitlist = d3sum (v.map waitListNum) := rfl

theorem summarizeBody_percent (overview : Option (List OverviewRow))
    (v : List SectionRec) (d0 : SectionRec) :
    (summarizeBody overview v d0).percent_available =
      jsDiv (summarizeBody overview v d0).available
        (summarizeBody overview v d0).capacity := rfl

theorem summarizeBody_capacity_noTable (v : List SectionRec) (d0 : SectionRec) :
    (summarizeBody none v d0).capacity = (summarizeBody none v d0).available := rfl

theorem summarizeBody_capacity_miss {table : List OverviewRow}
    {v : List SectionRec} {d0 : SectionRec}
    (h : lookupOverview table d0.Course = none) :
    (summarizeBody (some table) v d0).capacity =
      (summarizeBody (some table) v d0).available := by
  simp [summarizeBody, h]

theorem summarizeBody_capacity_hit {table : List OverviewRow}
    {v : List SectionRec} {d0 : SectionRec} {row : OverviewRow}
    (h : lookupOverview table d0.Course = some row) :
    (summarizeBody (some table) v d0).capacity =
      (if jsLt (d3sum (v.map openSeatsNum)) row.capacity then row.capacity
       else d3sum (v.map openSeatsNum)) := by
  simp [summarizeBody, h]

/-- Every record a successful filter keeps comes from the input and
tested countable. -/
theorem filterCountableE_ok_mem {l fl : List SectionRec}
    (h : filterCountableE l = .ok fl) :
    ∀ d ∈ fl, d ∈ l ∧ countableE d = .ok true := by
  induction l generalizing fl with
  | nil =>
    simp only [filterCountableE] at h
    cases h
    simp
  | cons x xs ih =>
    rw [filterCountableE] at h
    cases hx : countableE x with
    | error e => rw [hx] at h; cases h
    | ok b =>
      rw [hx] at h
      cases hrest : filterCountableE xs with
      | error e => rw [hrest] at h; cases h
      | ok rest =>
        rw [hrest] at h
        cases h
        intro d hd
        by_cases hb : b = true
        · subst hb
          simp only [if_pos rfl] at hd
          rcases List.mem_cons.mp hd with hdx | hdr
          · subst hdx; exact ⟨List.mem_cons_self _ _, hx⟩
          · obtain ⟨h1, h2⟩ := ih hrest d hdr
            exact ⟨List.mem_cons_of_mem _ h1, h2⟩
        · rw [Bool.not_eq_true] at hb
          subst hb
          simp only [if_neg Bool.false_ne_true] at hd
          obtain ⟨h1, h2⟩ := ih hrest d hd
          exact ⟨List.mem_cons_of_mem _ h1, h2⟩

/-- Keys produced by the grouping all occur as Course values of the
input. -/
theorem uniqueKeysAux_subset {k : String} :
    ∀ (ks seen : List String), k ∈ uniqueKeysAux ks seen → k ∈ ks := by
  intro ks
  induction ks with
  | nil => intro seen h; simpa [uniqueKeysAux] using h
  | cons x xs ih =>
    intro seen h
    rw [uniqueKeysAux] at h
    by_cases hx : seen.contains x
    · rw [if_pos hx] at h
      exact List.mem_cons_of_mem _ (ih seen h)
    · rw [if_neg hx] at h
      rcases List.mem_cons.mp h with h1 | h2
      · simp [h1]
      · exact List.mem_cons_of_mem _ (ih (x :: seen) h2)

/-- Every group the rollups grouping produces is keyed by the Course of
some input record. -/
theorem rollupsByCourse_key_mem {l : List SectionRec} {p : String × List SectionRec}
    (h : p ∈ rollupsByCourse l) : ∃ d ∈ l, d.Course = p.1 := by
  rw [rollupsByCourse] at h
  obtain ⟨k, hk, hkp⟩ := List.mem_map.mp h
  have := uniqueKeysAux_subset _ _ hk
  obtain ⟨d, hd, hdk⟩ := List.mem_map.mp this
  exact ⟨d, hd, by rw [hdk, ← hkp]⟩

/-- A column with at least two colon parts extracts a pair. -/
theorem parseColumn_ok_of_colOk {t : String} (h : colOkB t = true) :
    ∃ kv, parseColumn t = .ok kv := by
  rw [colOkB] at h
  rw [parseColumn]
  cases hsp : splitColon (jsTrim t) with
  | nil => exact absurd hsp (splitColonAux_ne_nil _ _)
  | cons k rest =>
    cases rest with
    | nil => rw [hsp] at h; simp at h
    | cons v more => exact ⟨_, rfl⟩

/-- A column with fewer than two colon parts raises the TypeError of the
trim call on an undefined value. -/
theorem parseColumn_error_of_not_colOk {t : String} (h : colOkB t = false) :
    parseColumn t =
      .error "TypeError: Cannot read properties of undefined (reading trim)" := by
  rw [colOkB] at h
  rw [parseColumn]
  cases hsp : splitColon (jsTrim t) with
  | nil => exact absurd hsp (splitColonAux_ne_nil _ _)
  | cons k rest =>
    cases rest with
    | nil => rfl
    | cons v more => rw [hsp] at h; simp at h

/-- Extraction of a row succeeds whenever every column splits into at
least two parts, whatever labels appear or are missing. -/
theorem extractRow_ok {name time title : String} {cols : List String}
    (h : ∀ t ∈ cols, colOkB t = true) :
    ∃ sec, extractRow name time title cols = .ok sec := by
  rw [extractRow]
  suffices haux : ∀ (sec0 : SectionRec),
      ∃ sec, cols.foldlM
        (fun sec text => (parseColumn text).map (fun kv => setField sec kv.1 kv.2))
        sec0 = .ok sec from haux _
  induction cols with
  | nil => intro sec0; exact ⟨sec0, rfl⟩
  | cons t ts ih =>
    intro sec0
    obtain ⟨kv, hkv⟩ := parseColumn_ok_of_colOk (h t (by simp))
    have hts : ∀ u ∈ ts, colOkB u = true := fun u hu => h u (by simp [hu])
    obtain ⟨sec, hsec⟩ := (ih hts) (setField sec0 kv.1 kv.2)
    exact ⟨sec, by rw [List.foldlM_cons, hkv]; simpa [Except.map] using hsec⟩

/-- Setting any key other than the Course property leaves Course
unchanged. -/
theorem setField_Course {d : SectionRec} {k v : String} (h : (k == "Course") = false) :
    (setField d k v).Course = d.Course := by
  rw [setField, if_neg (by simp_all)]
  by_cases h2 : k == "Time" <;> by_cases h3 : k == "title" <;>
    simp_all [setField]

/-- Extraction cannot change the course id of the record when no column
key is the Course property. -/
theorem extractRow_Course {name time title : String} {cols : List String}
    {sec : SectionRec}
    (h : extractRow name time title cols = .ok sec)
    (hk : ∀ t ∈ cols, colKeyNotCourse t = true) :
    sec.Course = name := by
  rw [extractRow] at h
  suffices haux : ∀ (cols2 : List String) (sec0 sec : SectionRec),
      (∀ t ∈ cols2, colKeyNotCourse t = true) →
      cols2.foldlM
        (fun sec text => (parseColumn text).map (fun kv => setField sec kv.1 kv.2))
        sec0 = .ok sec → sec.Course = sec0.Course from haux cols _ sec hk h
  intro cols2
  induction cols2 with
  | nil =>
    intro sec0 s _ h0
    simp only [List.foldlM_nil] at h0
    cases h0
    rfl
  | cons t ts ih =>
    intro sec0 s hk0 h0
    rw [List.foldlM_cons] at h0
    cases hp : parseColumn t with
    | error e => rw [hp] at h0; simp [Except.map, Bind.bind, Except.bind] at h0
    | ok kv =>
      rw [hp] at h0
      simp only [Except.map, Bind.bind, Except.bind] at h0
      have hts : ∀ u ∈ ts, colKeyNotCourse u = true := fun u hu => hk0 u (by simp [hu])
      have hcourse : (kv.1 == "Course") = false := by
        have := hk0 t (by simp)
        rw [colKeyNotCourse, hp] at this
        simpa using this
      have := ih (setField sec0 kv.1 kv.2) s hts h0
      rw [this, setField_Course hcourse]

/-- Each record of a successful mapM extraction comes from one input
row. -/
theorem mapM_extract_mem {f : List String → Except String SectionRec} :
    ∀ (rows : List (List String)) (li : List SectionRec),
      rows.mapM f = .ok li → ∀ x ∈ li, ∃ cols ∈ rows, f cols = .ok x := by
  intro rows
  induction rows with
  | nil =>
    intro li h x hx
    simp only [List.mapM_nil] at h
    cases h
    simp at hx
  | cons r rs ih =>
    intro li h x hx
    rw [List.mapM_cons] at h
    cases hf : f r with
    | error e => rw [hf] at h; simp [Bind.bind, Except.bind] at h
    | ok b =>
      rw [hf] at h
      cases hrs : rs.mapM f with
      | error e => rw [hrs] at h; simp [Bind.bind, Except.bind] at h
      | ok bs =>
        rw [hrs] at h
        simp only [Bind.bind, Except.bind, pure, Except.pure] at h
        cases h
        rcases List.mem_cons.mp hx with hxb | hxbs
        · exact ⟨r, by simp, by rw [hf, hxb]⟩
        · obtain ⟨cols, h1, h2⟩ := ih bs hrs x hxbs
          exact ⟨cols, by simp [h1], h2⟩

/-- Every record a successful per-course fetch yields carries that course
id, provided the page rebinds no Course property. -/
theorem getCourseSections_Course {name title time : String} {resp : FetchResponse}
    {li : List SectionRec}
    (h : getCourseSections name title time resp = .ok li)
    (hp : ∀ rows, resp = .success rows → pageOkB rows = true) :
    ∀ d ∈ li, d.Course = name := by
  cases resp with
  | rejected => cases h
  | httpNotOk =>
    cases h
    intro d hd
    simp at hd
  | success rows =>
    intro d hd
    rw [getCourseSections] at h
    obtain ⟨cols, hcols, hex⟩ := mapM_extract_mem rows li h d hd
    have hpage := hp rows rfl
    rw [pageOkB, List.all_eq_true] at hpage
    have hcols2 := hpage cols hcols
    rw [List.all_eq_true] at hcols2
    exact extractRow_Course hex hcols2

/-- Each record of a successful fetch phase comes from the per-course
list of some catalog entry. -/
theorem gatherSections_mem {net : String → FetchResponse} {time : String} :
    ∀ (cs : List CatEntry) (secs : List SectionRec),
      gatherSections net time cs = .ok secs →
      ∀ d ∈ secs, ∃ e ∈ cs, ∃ li,
        getCourseSections e.course e.title time (net e.course) = .ok li ∧ d ∈ li := by
  intro cs
  induction cs with
  | nil =>
    intro secs h d hd
    rw [gatherSections] at h
    cases h
    simp at hd
  | cons e es ih =>
    intro secs h d hd
    rw [gatherSections] at h
    cases hg : getCourseSections e.course e.title time (net e.course) with
    | error err => rw [hg] at h; cases h
    | ok li =>
      rw [hg] at h
      cases hr : gatherSections net time es with
      | error err => rw [hr] at h; cases h
      | ok rest =>
        rw [hr] at h
        cases h
        rcases List.mem_append.mp hd with hdl | hdr
        · exact ⟨e, by simp, li, hg, hdl⟩
        · obtain ⟨e2, h1, li2, h2, h3⟩ := ih rest hr d hdr
          exact ⟨e2, by simp [h1], li2, h2, h3⟩

/-- A rejected fetch of any catalog entry fails the whole fetch phase. -/
theorem gatherSections_error_of_rejected {net : String → FetchResponse}
    {time : String} {e : CatEntry} :
    ∀ (cs : List CatEntry), e ∈ cs → net e.course = .rejected →
      ∃ err, gatherSections net time cs = .error err := by
  intro cs
  induction cs with
  | nil => intro h; simp at h
  | cons e0 es ih =>
    intro hmem hrej
    rw [gatherSections]
    cases hg : getCourseSections e0.course e0.title time (net e0.course) with
    | error err => exact ⟨err, rfl⟩
    | ok li =>
      rcases List.mem_cons.mp hmem with he | he
      · subst he
        rw [hrej] at hg
        cases hg
      · obtain ⟨err, herr⟩ := ih he hrej
        rw [herr]
        exact ⟨err, rfl⟩

theorem natToStrAux_zero (f : Nat) : natToStrAux f 0 = [] := by
  cases f <;> rfl

theorem digitChar_isDigit {r : Nat} (h : r < 10) :
    (Char.ofNat (48 + r)).isDigit = true := by
  interval_cases r <;> decide

theorem natToStrAux_all_digits :
    ∀ (f m : Nat), ∀ c ∈ natToStrAux f m, c.isDigit = true := by
  intro f
  induction f with
  | zero => intro m c hc; simp [natToStrAux] at hc
  | succ f ih =>
    intro m c hc
    cases m with
    | zero => simp [natToStrAux] at hc
    | succ m' =>
      rw [natToStrAux] at hc
      rcases List.mem_append.mp hc with h1 | h2
      · exact ih _ c h1
      · have : c = Char.ofNat (48 + (m' + 1) % 10) := by simpa using h2
        rw [this]
        exact digitChar_isDigit (Nat.mod_lt _ (by omega))

theorem natToStrAux_length :
    ∀ (f m k : Nat), m ≤ f → m < 10 ^ k → (natToStrAux f m).length ≤ k := by
  intro f
  induction f with
  | zero =>
    intro m k hm _
    have : m = 0 := by omega
    subst this
    simp [natToStrAux]
  | succ f ih =>
    intro m k hm hk
    cases m with
    | zero => simp [natToStrAux]
    | succ m' =>
      have hkpos : k ≠ 0 := by
        intro h
        subst h
        rw [pow_zero] at hk
        omega
      obtain ⟨k', rfl⟩ : ∃ k', k = k' + 1 := ⟨k - 1, by omega⟩
      rw [natToStrAux, List.length_append]
      have hd1 : (m' + 1) / 10 ≤ f := by
        have := Nat.div_lt_self (Nat.succ_pos m') (by omega : 1 < 10)
        omega
      have hd2 : (m' + 1) / 10 < 10 ^ k' := by
        rw [Nat.div_lt_iff_lt_mul (by omega : 0 < 10)]
        calc m' + 1 < 10 ^ (k' + 1) := hk
          _ = 10 ^ k' * 10 := by ring
      have := ih ((m' + 1) / 10) k' hd1 hd2
      simp only [List.length_singleton]
      omega

theorem natToStrAux_ne_nil :
    ∀ (f m : Nat), 1 ≤ m → m ≤ f → natToStrAux f m ≠ [] := by
  intro f m h1 h2
  cases f with
  | zero => omega
  | succ f =>
    cases m with
    | zero => omega
    | succ m' =>
      rw [natToStrAux]
      simp

theorem natToStrAux_head :
    ∀ (f m : Nat), 1 ≤ m → m ≤ f → (natToStrAux f m).head? ≠ some '0' := by
  intro f
  induction f with
  | zero => intro m h1 h2; omega
  | succ f ih =>
    intro m h1 h2
    cases m with
    | zero => omega
    | succ m' =>
    rw [natToStrAux]
    by_cases hm : m' + 1 < 10
    · have hdz : (m' + 1) / 10 = 0 := Nat.div_eq_of_lt hm
      rw [hdz, natToStrAux_zero, List.nil_append]
      have hmod : (m' + 1) % 10 = m' + 1 := Nat.mod_eq_of_lt hm
      rw [hmod]
      have : m' < 9 := by omega
      interval_cases m' <;> decide
    · have h10 : 10 ≤ m' + 1 := by omega
      have hq1 : 1 ≤ (m' + 1) / 10 := Nat.le_div_iff_mul_le (by omega) |>.mpr (by omega)
      have hqf : (m' + 1) / 10 ≤ f := by
        have := Nat.div_lt_self (Nat.succ_pos m') (by omega : 1 < 10)
        omega
      have hne := natToStrAux_ne_nil f ((m' + 1) / 10) hq1 hqf
      obtain ⟨a, as, ha⟩ := List.exists_cons_of_ne_nil hne
      rw [ha, List.cons_append, List.head?_cons]
      have := ih ((m' + 1) / 10) hq1 hqf
      rw [ha, List.head?_cons] at this
      exact this

theorem natToStr_data_all_digits (n : Nat) :
    ∀ c ∈ (natToStr n).data, c.isDigit = true := by
  rw [natToStr]
  by_cases h : n = 0
  · rw [if_pos h]
    intro c hc
    have : c = '0' := by simpa using hc
    rw [this]; rfl
  · rw [if_neg h]
    exact natToStrAux_all_digits n n

theorem natToStr_data_length_le (n k : Nat) (h : n < 10 ^ k) (hk : 1 ≤ k) :
    (natToStr n).data.length ≤ k := by
  rw [natToStr]
  by_cases h0 : n = 0
  · rw [if_pos h0]; simpa using hk
  · rw [if_neg h0]
    exact natToStrAux_length n n k le_rfl h

theorem natToStr_data_head (n : Nat) (h : n ≠ 0) :
    (natToStr n).data.head? ≠ some '0' := by
  rw [natToStr, if_neg h]
  exact natToStrAux_head n n (by omega) le_rfl

/-- The stringification of an autotyped nonnegative integral number is
its unpadded decimal rendering. -/
theorem jsNumToString_natCast (n : Nat) :
    jsNumToString (JsNum.num n 1) = natToStr n := by
  rw [jsNumToString, if_pos rfl, intToStr, if_neg (by omega)]
  norm_num

theorem getLast?_exists : ∀ (l : List Char), l ≠ [] → ∃ c, l.getLast? = some c
  | [], h => absurd rfl h
  | [a], _ => ⟨a, by simp⟩
  | a :: b :: l, _ => by
    rw [List.getLast?_cons_cons]
    exact getLast?_exists (b :: l) (by simp)

/-- The key built from an unpadded decimal number after a department that
does not end in a digit never equals a course id that ends in a
zero-padded three-digit block. -/
theorem unpaddedKey_ne_paddedId
    {dep2 dep : String} {suf : List Char} {n : Nat}
    (hd2 : endsNonDigitB dep2 = true)
    (hn : n < 1000)
    (hlen : suf.length = 3)
    (hdig : ∀ c ∈ suf, c.isDigit = true)
    (h0 : suf.head? = some '0') :
    dep2 ++ natToStr n ≠ dep ++ (⟨suf⟩ : String) := by
  intro heq
  have hdata : dep2.data ++ (natToStr n).data = dep.data ++ suf := by
    have := congrArg String.data heq
    rwa [String.data_append, String.data_append] at this
  have hrlen : (natToStr n).data.length ≤ 3 :=
    natToStr_data_length_le n 3 (by omega) (by omega)
  rcases Nat.lt_or_ge (natToStr n).data.length 3 with hlt | hge
  · have hk1 : 1 ≤ 3 - (natToStr n).data.length := by omega
    have hlen2 : (natToStr n).data.length =
        (suf.drop (3 - (natToStr n).data.length)).length := by
      rw [List.length_drop]; omega
    rw [(List.take_append_drop (3 - (natToStr n).data.length) suf).symm,
      ← List.append_assoc] at hdata
    obtain ⟨h1, h2⟩ := List.append_inj' hdata hlen2
    have htk : suf.take (3 - (natToStr n).data.length) ≠ [] := by
      cases suf with
      | nil => simp at h0
      | cons c0 rest =>
        obtain ⟨k', hk'⟩ : ∃ k', 3 - (natToStr n).data.length = k' + 1 :=
          ⟨3 - (natToStr n).data.length - 1, by omega⟩
        rw [hk']
        simp
    obtain ⟨c, hc⟩ := getLast?_exists _ htk
    have hlast : dep2.data.getLast? = some c := by
      rw [h1, List.getLast?_append, hc]
      rfl
    have hcd : c.isDigit = true :=
      hdig c (List.take_subset _ _ (mem_of_getLast? _ c hc))
    rw [endsNonDigitB, hlast] at hd2
    simp [hcd] at hd2
  · have h3 : (natToStr n).data.length = 3 := le_antisymm hrlen hge
    have hdlen : dep2.data.length = dep.data.length := by
      have := congrArg List.length hdata
      rw [List.length_append, List.length_append, h3, hlen] at this
      omega
    obtain ⟨h1, h2⟩ := List.append_inj hdata hdlen
    have hne : n ≠ 0 := by
      intro h0n
      subst h0n
      have : (natToStr 0).data = ['0'] := rfl
      rw [this] at h3
      simp at h3
    have := natToStr_data_head n hne
    rw [h2, h0] at this
    exact this rfl

/-! Claim theorems. -/

/-- C8: when the course-catalog fetch returns a non-success status
(getCourses null), the run aborts with the uncaught TypeError raised by
iterating the null catalog, before either publish call is issued: the
publish trace is empty, so neither the overview key nor a stub key is
written and the published artifacts are never torn. -/
theorem c8_catalog_unavailable_no_publish (net : String → FetchResponse)
    (overview : Option (List OverviewRow)) (time : String) :
    handlerModel none net overview time =
      ([], some "TypeError: Cannot read properties of null (reading entries)") := rfl

/-- C10: in every state the bounded task pool of the section-fetch phase
can reach, at most 25 fetch operations are in flight, for every catalog
size. -/
theorem c10_pool_bound (n : Nat) (s : PoolState)
    (h : PoolReachable NUM_OPERATIONS n s) : s.running ≤ 25 := by
  induction h with
  | init => exact Nat.zero_le _
  | step s2 t hs hst ih =>
    cases hst with
    | start hp hr =>
      have hr2 : s2.running < 25 := by simpa [NUM_OPERATIONS] using hr
      show s2.running + 1 ≤ 25
      omega
    | finish hr =>
      show s2.running - 1 ≤ 25
      omega

/-- Witness for C10: after starting one task from a seven-course catalog,
the reached state is within the bound. -/
theorem c10_witness : (PoolState.mk 6 1 0).running ≤ 25 :=
  c10_pool_bound 7 ⟨6, 1, 0⟩
    (PoolReachable.step _ _ PoolReachable.init
      (PoolStep.start ⟨7, 0, 0⟩ (by decide) (by decide)))

/-- C4 counterexample: a countable section with zero open seats and no
hint gives capacity 0, and the published percentage is the JavaScript
NaN of 0 divided by 0 rather than 0 (and it is a number, so it is not
undefined either): the claim that a capacity-0 summary follows a chosen
policy of 0 or undefined is false of the code. -/
theorem c4_counterexample :
    (summarizeGroup none [secZero]).map Summary.percent_available = some JsNum.nan
    ∧ JsNum.nan ≠ JsNum.num 0 1 := by decide

/-- C4 as amended: percentAvailable is the JavaScript quotient of
available by capacity; in exact rational value it is available divided by
capacity whenever capacity is nonzero, and when capacity and available
are both zero the published value is NaN — the code picks no 0-or-
undefined policy, the IEEE indeterminate result flows through. -/
theorem c4_percent_divides (overview : Option (List OverviewRow))
    (v : List SectionRec) (d0 : SectionRec) (s : Summary)
    (hv : v.head? = some d0)
    (hs : summarizeGroup overview v = some s) :
    s.percent_available = jsDiv s.available s.capacity
    ∧ (∀ (a c : Int) (dd ee : Nat), s.available = .num a dd → s.capacity = .num c ee →
        0 < dd → 0 < ee → c ≠ 0 →
        jsValQ s.percent_available = some (((a : ℚ) / (dd : ℚ)) / ((c : ℚ) / (ee : ℚ))))
    ∧ (∀ (dd ee : Nat), s.available = .num 0 dd → s.capacity = .num 0 ee →
        s.percent_available = .nan) := by
  rw [summarizeGroup_eq hv] at hs
  cases hs
  refine ⟨rfl, ?_, ?_⟩
  · intro a c dd ee ha hc hdd hee hcne
    rw [summarizeBody_percent, ha, hc]
    have hddQ : ((dd : ℚ)) ≠ 0 := by positivity
    have heeQ : ((ee : ℚ)) ≠ 0 := by positivity
    have hcQ : ((c : ℚ)) ≠ 0 := by exact_mod_cast hcne
    rcases lt_or_gt_of_ne hcne with hneg | hpos
    · have harm : jsDiv (JsNum.num a dd) (JsNum.num c ee) =
          JsNum.num (-(a * ee)) (dd * (-c).toNat) := by
        simp only [jsDiv]
        rw [if_neg hcne, if_neg (by omega)]
      rw [harm, jsValQ]
      have hden : dd * (-c).toNat ≠ 0 :=
        Nat.mul_ne_zero (by omega) (by omega)
      rw [if_neg hden]
      congr 1
      have htn : (((-c).toNat : ℕ) : ℚ) = -(c : ℚ) := by
        exact_mod_cast Int.toNat_of_nonneg (by omega : (0 : Int) ≤ -c)
      push_cast [htn]
      field_simp
    · have harm : jsDiv (JsNum.num a dd) (JsNum.num c ee) =
          JsNum.num (a * ee) (dd * c.toNat) := by
        simp only [jsDiv]
        rw [if_neg hcne, if_pos hpos]
      rw [harm, jsValQ]
      have hden : dd * c.toNat ≠ 0 :=
        Nat.mul_ne_zero (by omega) (by omega)
      rw [if_neg hden]
      congr 1
      have htp : ((c.toNat : ℕ) : ℚ) = (c : ℚ) := by
        exact_mod_cast Int.toNat_of_nonneg (by omega : (0 : Int) ≤ c)
      push_cast [htp]
      field_simp
  · intro dd ee ha hc
    rw [summarizeBody_percent, ha, hc]
    simp [jsDiv]

/-- Witness for C4: the one-lecture EECS485 group with five open seats
and no hint has percentAvailable of rational value 5 over 5. -/
theorem c4_witness :
    jsValQ c4wSummary.percent_available =
      some ((((5 : Int) : ℚ) / ((1 : Nat) : ℚ)) / (((5 : Int) : ℚ) / ((1 : Nat) : ℚ))) :=
  (c4_percent_divides none [secLEC] secLEC c4wSummary rfl (by decide)).2.1 5 5 1 1
    rfl rfl (by decide) (by decide) (by decide)

/-- C6 counterexample: a section row with a column whose text contains no
colon does not yield a record lacking that field — the extractor raises
the TypeError of calling trim on the undefined destructured value, so the
pipeline does not complete on such a row. -/
theorem c6_counterexample :
    extractRow "AERO201" "T" "t3" ["NoColonColumn"] =
      .error "TypeError: Cannot read properties of undefined (reading trim)" := rfl

/-- C6 as amended: extraction is total over rows whose columns all carry
a colon, whatever labels are present or absent — missing labels are
simply omitted and a missing Open Seats merely coerces to NaN, which the
sums skip — but it is not total over arbitrary rows: a colon-less column
raises a TypeError in the extractor, and a record without a Section
label raises a TypeError in the aggregation filter. -/
theorem c6_extraction_tolerance
    (name time title : String) (cols : List String) (d : SectionRec) (t : String)
    (hcols : ∀ u ∈ cols, colOkB u = true)
    (hbad : colOkB t = false)
    (hsec : getField d "Section" = none)
    (hos : getField d "Open Seats" = none) :
    (∃ sec, extractRow name time title cols = .ok sec)
    ∧ parseColumn t =
        .error "TypeError: Cannot read properties of undefined (reading trim)"
    ∧ countableE d =
        .error "TypeError: Cannot read properties of undefined (reading includes)"
    ∧ openSeatsNum d = .nan
    ∧ (∀ l, d3sum (JsNum.nan :: l) = d3sum l) := by
  refine ⟨extractRow_ok hcols, parseColumn_error_of_not_colOk hbad, ?_, ?_, ?_⟩
  · rw [countableE, hsec]
  · rw [openSeatsNum, hos]
  · intro l
    rw [d3sum, d3sum, List.foldl_cons]
    simp [jsTruthy]

/-- Witness for C6: the bare record with no columns has no Section label
and the filter raises on it. -/
theorem c6_witness :
    countableE secBare =
      .error "TypeError: Cannot read properties of undefined (reading includes)" :=
  (c6_extraction_tolerance "EECS485" "T" "t" ["Section: LEC001"] secBare
    "NoColonColumn" (by intro u hu; rw [List.mem_singleton] at hu; subst hu; rfl)
    rfl rfl rfl).2.2.1

/-- C2: a record is countable exactly when its Section label contains one
of the substrings LEC, SEM, REC, IND; a course all of whose fetched
records are non-countable contributes no group to the aggregated rollup,
while its raw records still appear in the stub table. -/
theorem c2_countable_filter
    (d : SectionRec) (lab : String) (sections filtered : List SectionRec) (c : String)
    (hlab : getField d "Section" = some lab)
    (hall : ∀ x ∈ sections, x.Course = c → countableE x = .ok false)
    (hfil : filterCountableE sections = .ok filtered) :
    (countableE d = .ok true ↔
      ("LEC".data <:+: lab.data ∨ "SEM".data <:+: lab.data ∨
       "REC".data <:+: lab.data ∨ "IND".data <:+: lab.data))
    ∧ allKeysNot c (rollupsByCourse filtered) = true
    ∧ (∀ x ∈ sections, x.Course = c → stubRowOf x ∈ stubOf sections) := by
  refine ⟨?_, ?_, ?_⟩
  · rw [countableE, hlab]
    simp only [Except.ok.injEq, Bool.or_eq_true, jsIncludes_iff]
    tauto
  · rw [allKeysNot, List.all_eq_true]
    intro p hp
    obtain ⟨x, hx, hxc⟩ := rollupsByCourse_key_mem hp
    obtain ⟨hxin, hxtrue⟩ := filterCountableE_ok_mem hfil x hx
    simp only [bne_iff_ne, ne_eq]
    intro hpc
    have := hall x hxin (by rw [hxc, hpc])
    rw [this] at hxtrue
    simp at hxtrue
  · intro x hx _
    exact List.mem_map_of_mem stubRowOf hx

/-- Witness for C2: a course with only a DIS section yields an empty
filtered list, whose rollup has no group for it. -/
theorem c2_witness :
    allKeysNot "CLIMATE405" (rollupsByCourse []) = true :=
  (c2_countable_filter secLEC "LEC001" [secDIS] [] "CLIMATE405" rfl
    (by intro x hx hxc; rw [List.mem_singleton] at hx; subst hx; rfl) rfl).2.1

theorem dropLast3_append_sliceLast3 (x : String) :
    dropLast3 x ++ sliceLast3 x = x := by
  apply String.ext
  rw [String.data_append]
  exact List.take_append_drop _ _

/-- C9: every aggregated summary parses number from the trailing three
characters of the course id and department from the remaining leading
characters (which reassemble to the course id); undergrad holds exactly
when the parsed number is below 500, and studyAbroad holds exactly when
the course id contains the STDABRD marker substring. -/
theorem c9_summary_fields (overview : Option (List OverviewRow))
    (v : List SectionRec) (d0 : SectionRec) (s : Summary)
    (hv : v.head? = some d0)
    (hs : summarizeGroup overview v = some s) :
    s.number = strToJsNum (sliceLast3 d0.Course)
    ∧ s.department = dropLast3 d0.Course
    ∧ s.department ++ sliceLast3 d0.Course = d0.Course
    ∧ s.undergrad = jsLt s.number (JsNum.int 500)
    ∧ (∀ a : Int, s.number = .num a 1 → (s.undergrad = true ↔ a < 500))
    ∧ (s.studyAbroad = true ↔ "STDABRD".data <:+: d0.Course.data) := by
  rw [summarizeGroup_eq hv] at hs
  cases hs
  refine ⟨rfl, rfl, dropLast3_append_sliceLast3 _, rfl, ?_, jsIncludes_iff _ _⟩
  intro a ha
  have : (summarizeBody overview v d0).undergrad =
      jsLt (summarizeBody overview v d0).number (JsNum.int 500) := rfl
  rw [this, ha]
  simp [jsLt, JsNum.int]

/-- Witness for C9: the study-abroad course numbered 685 is not
undergraduate. -/
theorem c9_witness : c9wSummary.undergrad = true ↔ (685 : Int) < 500 :=
  (c9_summary_fields none [secAbroad] secAbroad c9wSummary rfl
    (by decide)).2.2.2.2.1 685 rfl

theorem openSeatsFiniteB_spec {x : SectionRec} (h : openSeatsFiniteB x = true) :
    openSeatsNum x ≠ JsNum.inf ∧ openSeatsNum x ≠ JsNum.negInf := by
  rw [openSeatsFiniteB] at h
  constructor
  · intro he; rw [he] at h; simp at h
  · intro he; rw [he] at h; simp at h

/-- C1: available is the d3 sum of the coerced Open Seats of the group;
with no prior-overview table the capacity equals available; with a table,
capacity equals available when the lookup misses or the hint does not
exceed available, and equals the hint value when it does; consequently
capacity is at least available (given that no Open Seats value coerces to
an infinity, which no scraped digit string does). -/
theorem c1_capacity_policy (overview : Option (List OverviewRow))
    (v : List SectionRec) (d0 : SectionRec) (s : Summary)
    (hv : v.head? = some d0)
    (hs : summarizeGroup overview v = some s)
    (hfin : ∀ x ∈ v, openSeatsFiniteB x = true) :
    s.available = d3sum (v.map openSeatsNum)
    ∧ (overview = none → s.capacity = s.available)
    ∧ (∀ table, overview = some table →
        (lookupOverview table d0.Course = none → s.capacity = s.available)
        ∧ (∀ r, lookupOverview table d0.Course = some r →
            (jsLt s.available r.capacity = true → s.capacity = r.capacity)
            ∧ (jsLt s.available r.capacity = false → s.capacity = s.available)))
    ∧ jsLe s.available s.capacity = true := by
  rw [summarizeGroup_eq hv] at hs
  cases hs
  have havail : (summarizeBody overview v d0).available = d3sum (v.map openSeatsNum) := rfl
  obtain ⟨a, dd, hsum⟩ : ∃ a dd, d3sum (v.map openSeatsNum) = JsNum.num a dd := by
    apply d3sum_num
    intro y hy
    obtain ⟨x, hx, rfl⟩ := List.mem_map.mp hy
    exact openSeatsFiniteB_spec (hfin x hx)
  refine ⟨rfl, ?_, ?_, ?_⟩
  · rintro rfl
    rfl
  · rintro table rfl
    refine ⟨fun h => summarizeBody_capacity_miss h, ?_⟩
    intro r hr
    constructor
    · intro hlt
      have hlt2 : jsLt (d3sum (v.map openSeatsNum)) r.capacity = true := hlt
      rw [summarizeBody_capacity_hit hr, if_pos hlt2]
    · intro hflt
      have hflt2 : jsLt (d3sum (v.map openSeatsNum)) r.capacity = false := hflt
      rw [summarizeBody_capacity_hit hr, if_neg (by simp [hflt2])]
      rfl
  · cases overview with
    | none =>
      show jsLe (summarizeBody none v d0).available
        (summarizeBody none v d0).available = true
      rw [havail, hsum]
      exact jsLe_refl_num a dd
    | some table =>
      cases hlook : lookupOverview table d0.Course with
      | none =>
        rw [summarizeBody_capacity_miss hlook, havail, hsum]
        exact jsLe_refl_num a dd
      | some r =>
        rw [summarizeBody_capacity_hit hlook]
        by_cases hlt : jsLt (d3sum (v.map openSeatsNum)) r.capacity = true
        · rw [if_pos hlt]
          rw [havail]
          exact jsLt_imp_jsLe hlt
        · rw [if_neg hlt, havail, hsum]
          exact jsLe_refl_num a dd

/-- Witness for C1: the two-section EECS485 group with seven open seats
under a 100-capacity hint has capacity at least available. -/
theorem c1_witness : jsLe c1wSummary.available c1wSummary.capacity = true :=
  (c1_capacity_policy (some [⟨"EECS", .num 485 1, .num 100 1⟩]) [secLEC, secIND]
    secLEC c1wSummary rfl (by decide) (by decide)).2.2.2

theorem waitOk_waitListNum (x : SectionRec) (h : waitOkB x = true) :
    ∃ k : Nat, waitListNum x = JsNum.num k 1 := by
  rw [waitOkB] at h
  cases hf : getField x "Wait List" with
  | none => rw [hf] at h; simp at h
  | some str =>
    rw [hf, Bool.or_eq_true] at h
    rcases h with hdash | hnum
    · have hd : str = "-" := by simpa using hdash
      subst hd
      exact ⟨0, by simp [waitListNum, hf]⟩
    · cases hn : strToJsNum str with
      | num a dd =>
        rw [hn] at hnum
        simp only [Bool.and_eq_true, decide_eq_true_eq, beq_iff_eq] at hnum
        obtain ⟨ha, hdd⟩ := hnum
        subst hdd
        have hsd : str ≠ "-" := by
          intro hsd
          subst hsd
          have : JsNum.nan = JsNum.num a 1 :=
            (show strToJsNum "-" = JsNum.nan from rfl).symm.trans hn
          cases this
        have hne : (str == "-") = false := beq_eq_false_iff_ne.mpr hsd
        exact ⟨a.toNat, by simp [waitListNum, hf, hne, hn, Int.toNat_of_nonneg ha]⟩
      | nan => rw [hn] at hnum; simp at hnum
      | inf => rw [hn] at hnum; simp at hnum
      | negInf => rw [hn] at hnum; simp at hnum

/-- C5: the waitlist sentinel dash normalizes to exactly 0 in the shared
normalization used both by the per-course sum and by the stub column; any
other present value contributes its numeric coercion; and when every
record of the group carries the sentinel or a nonnegative integral
numeral, the published per-course waitlist and every stub waitlist cell
are nonnegative integers. -/
theorem c5_waitlist_nonneg (overview : Option (List OverviewRow))
    (v : List SectionRec) (d0 : SectionRec) (s : Summary) (d : SectionRec)
    (hv : v.head? = some d0)
    (hs : summarizeGroup overview v = some s)
    (hall : ∀ x ∈ v, waitOkB x = true)
    (hdash : getField d "Wait List" = some "-") :
    (∃ k : Nat, s.waitlist = JsNum.num k 1)
    ∧ waitListNum d = JsNum.num 0 1
    ∧ (stubRowOf d).WaitList = JsNum.num 0 1
    ∧ (∀ x, waitOkB x = true → ∃ k : Nat, (stubRowOf x).WaitList = JsNum.num k 1)
    ∧ (∀ x str, getField x "Wait List" = some str → (str == "-") = false →
        waitListNum x = strToJsNum str) := by
  rw [summarizeGroup_eq hv] at hs
  cases hs
  refine ⟨?_, ?_, ?_, ?_, ?_⟩
  · rw [summarizeBody_waitlist]
    apply d3sum_nat
    intro y hy
    obtain ⟨x, hx, rfl⟩ := List.mem_map.mp hy
    exact waitOk_waitListNum x (hall x hx)
  · simp [waitListNum, hdash]
  · simp [stubRowOf, waitListNum, hdash]
  · intro x hx
    exact waitOk_waitListNum x hx
  · intro x str hstr hne
    simp [waitListNum, hstr, hne]

/-- Witness for C5: the IND section carries the sentinel and normalizes
to 0. -/
theorem c5_witness : waitListNum secIND = JsNum.num 0 1 :=
  (c5_waitlist_nonneg none [secLEC, secIND] secLEC c5wSummary secIND rfl
    (by decide) (by decide) rfl).2.1

/-- C7: a course whose detail fetch resolves with a non-success status
yields the empty list (no retry, no error); when the whole fetch phase
succeeds, no published record, stub row or rollup group carries that
course id; whereas a rejected (network-level) fetch is not caught and the
run aborts with no publish at all. -/
theorem c7_fetch_failure_policy
    (cs : List CatEntry) (net : String → FetchResponse)
    (overview : Option (List OverviewRow)) (time c : String)
    (hc : net c = .httpNotOk)
    (hpages : ∀ e ∈ cs, ∀ rows, net e.course = .success rows → pageOkB rows = true) :
    (∀ title, getCourseSections c title time (net c) = .ok [])
    ∧ (∀ sections, gatherSections net time cs = .ok sections →
        noCourseIn c sections = true
        ∧ noStubCourse c (stubOf sections) = true
        ∧ (∀ filtered, filterCountableE sections = .ok filtered →
            allKeysNot c (rollupsByCourse filtered) = true))
    ∧ (∀ e ∈ cs, net e.course = .rejected →
        ∃ err, handlerModel (some cs) net overview time = ([], some err)) := by
  have hmain : ∀ sections, gatherSections net time cs = .ok sections →
      ∀ d ∈ sections, d.Course ≠ c := by
    intro sections hsec d hd
    obtain ⟨e, he, li, hli, hdli⟩ := gatherSections_mem cs sections hsec d hd
    by_cases hec : e.course = c
    · rw [hec, hc] at hli
      simp only [getCourseSections, Except.ok.injEq] at hli
      subst hli
      simp at hdli
    · have hdc := getCourseSections_Course hli (fun rows hr => hpages e he rows hr) d hdli
      rw [hdc]
      exact hec
  refine ⟨?_, ?_, ?_⟩
  · intro title
    rw [hc]
    rfl
  · intro sections hsec
    refine ⟨?_, ?_, ?_⟩
    · rw [noCourseIn, List.all_eq_true]
      intro d hd
      simpa using hmain sections hsec d hd
    · rw [noStubCourse, List.all_eq_true]
      intro r hr
      obtain ⟨d, hd, rfl⟩ := List.mem_map.mp hr
      simpa [stubRowOf] using hmain sections hsec d hd
    · intro filtered hfil
      rw [allKeysNot, List.all_eq_true]
      intro p hp
      obtain ⟨x, hx, hxc⟩ := rollupsByCourse_key_mem hp
      obtain ⟨hxin, _⟩ := filterCountableE_ok_mem hfil x hx
      simp only [bne_iff_ne, ne_eq]
      rw [← hxc]
      exact hmain sections hsec x hxin
  · intro e he hrej
    obtain ⟨err, herr⟩ :=
      @gatherSections_error_of_rejected net time e cs he hrej
    refine ⟨err, ?_⟩
    simp only [handlerModel, getSectionsModel, herr]

/-- Witness for C7: in the fixture network the EECS485 fetch resolves
with a non-success status and yields the empty list. -/
theorem c7_witness : getCourseSections "EECS485" "t" "T" (c7net "EECS485") = .ok [] :=
  (c7_fetch_failure_policy c7cat c7net none "T" "EECS485" rfl
    (by
      intro e he rows hr
      fin_cases he
      · exact FetchResponse.noConfusion hr
      · have h2 : FetchResponse.success c7page = .success rows :=
          (show c7net "AERO201" = FetchResponse.success c7page from rfl).symm.trans hr
        cases h2
        decide)).1 "t"

/-- C3: a prior capacity is applied to a course only when the prior row
department concatenated with the unpadded decimal rendering of its
autotyped number equals the full course id; for a course id ending in a
zero-padded three-digit block (parsed number below 100, and below 1000
for every prior row) built over departments that do not end in a digit,
the lookup always misses, so the hint is never applied and capacity
equals available even though the prior row for that course is in the
table. -/
theorem c3_hint_key_mismatch
    (table : List OverviewRow) (dep : String) (suf : List Char)
    (v : List SectionRec) (d0 : SectionRec) (s : Summary)
    (hrows : ∀ r ∈ table, endsNonDigitB r.department = true ∧
      ∃ n : Nat, n < 1000 ∧ r.number = JsNum.num n 1)
    (hlen : suf.length = 3)
    (hdig : ∀ ch ∈ suf, ch.isDigit = true)
    (h0 : suf.head? = some ('0' : Char))
    (hv : v.head? = some d0)
    (hcourse : d0.Course = dep ++ (⟨suf⟩ : String))
    (hs : summarizeGroup (some table) v = some s) :
    (∀ course r, lookupOverview table course = some r → makeOverviewKey r = course)
    ∧ lookupOverview table (dep ++ (⟨suf⟩ : String)) = none
    ∧ s.capacity = s.available := by
  have hmiss : lookupOverview table (dep ++ (⟨suf⟩ : String)) = none := by
    rw [lookupOverview, List.find?_eq_none]
    intro r hr
    obtain ⟨hend, n, hn, hnum⟩ := hrows r hr
    have hkey : makeOverviewKey r = r.department ++ natToStr n := by
      rw [makeOverviewKey, hnum, jsNumToString_natCast]
    simp only [hkey, beq_iff_eq]
    exact unpaddedKey_ne_paddedId hend hn hlen hdig h0
  refine ⟨?_, hmiss, ?_⟩
  · intro course r hfind
    have := List.find?_some hfind
    simpa using this
  · rw [summarizeGroup_eq hv] at hs
    cases hs
    apply summarizeBody_capacity_miss
    rw [hcourse]
    exact hmiss

/-- Witness for C3: the prior MATH085 row is keyed MATH85 and the lookup
by MATH085 misses. -/
theorem c3_witness :
    lookupOverview c3table ("MATH" ++ (⟨"085".data⟩ : String)) = none :=
  (c3_hint_key_mismatch c3table "MATH" "085".data [secMath] secMath c3wSummary
    (by
      intro r hr
      simp only [c3table, List.mem_singleton] at hr
      subst hr
      exact ⟨by decide, 85, by omega, rfl⟩)
    (by decide) (by decide) (by decide) rfl (by decide) (by decide)).2.1

end CourseScraper
